import Mathlib

/-
Verification of the `lg` logging facade (github.com/neilotoole/lg) against its
design specification. The repository defines a small leveled-logging interface
(`lg.Log`), a Discard adapter, backend adapters over zap (`zaplg`), slog
(`sloglg`) and the stdlib log package (`loglg`), and a test-capture adapter
(`testlg`) that redirects backend output into a testing.T.

The Lean definitions below are shallow embeddings of the Go source: pure Go
functions become Lean functions, pointer-receiver methods that never assign to
receiver fields become functions returning the (unchanged) receiver state plus
their emitted output, and heap allocation (for the frame claim about `With`)
is modelled by an explicit list-indexed heap. Go `int` arithmetic is modelled
by `goIntAdd`, 64-bit two's-complement wrapping addition on `Int`.
-/

set_option autoImplicit false
set_option linter.unusedVariables false

namespace LgSpec

/-- Log levels of the lg interface: DEBUG, WARN, ERROR. -/
inductive LogLevel : Type
  | debug
  | warn
  | error
  deriving DecidableEq, Repr

/-- A structured key-value field. Source: `type keyVal struct { k string; v any }`,
declared identically in zaplg (unnamed/part_007) and testlg v2 (lg/lg.go). The Go
`any` value type is a type parameter `V`. -/
structure KeyVal (V : Type) : Type where
  k : String
  v : V
  deriving DecidableEq, Repr

/-- A Go error value, identified by its message (what `err.Error()` returns). -/
structure GoError : Type where
  msg : String
  deriving DecidableEq, Repr

/-- An `io.Closer` whose `Close` method returns `closeErr` (`none` models a nil
error result). -/
structure Closer : Type where
  closeErr : Option GoError
  deriving DecidableEq, Repr

/-- Go 64-bit `int` addition: two's-complement wrapping of `a + b`. -/
def goIntAdd (a b : Int) : Int :=
  (a + b + 2 ^ 63) % 2 ^ 64 - 2 ^ 63

/-- Embeds the duplicate-key handling shared by `(*Log).With` in zaplg
(unnamed/part_007 lines 173-221) and testlg v2 (lg/lg.go lines 685-726): scan
`kvs` for the first entry whose key equals `key`; if found, produce a copy with
that entry's value replaced (`kvs[keyIndex].v = val`, keeping the stored key);
otherwise append `(key, val)` at the end (`kvs[len(kvs)-1] = keyVal{k, v}`). -/
def withKvs {V : Type} : List (KeyVal V) → String → V → List (KeyVal V)
  | [], key, val => [⟨key, val⟩]
  | kv :: rest, key, val =>
    if kv.k = key then ⟨kv.k, val⟩ :: rest
    else kv :: withKvs rest key val

/-- First-match lookup in an accumulated field list, the reading a structured
backend gives the field set. -/
def lookupKv {V : Type} : List (KeyVal V) → String → Option V
  | [], _ => none
  | kv :: rest, key => if kv.k = key then some kv.v else lookupKv rest key

/-- Result of applying a finite sequence of `With(key, val)` calls, in order,
to a freshly constructed instance (which starts with zero fields). -/
def applyWiths {V : Type} (ops : List (String × V)) : List (KeyVal V) :=
  ops.foldl (fun kvs op => withKvs kvs op.1 op.2) []

/-- Modelled from the spec wording of C1: the value of "the most recent
`With` call for that key" in a sequence of calls, `none` when the key was
never passed to `With`. -/
def specLastWith {V : Type} : List (String × V) → String → Option V
  | [], _ => none
  | (k, v) :: rest, key =>
    match specLastWith rest key with
    | some w => some w
    | none => if k = key then some v else none

/-- Modelled from the spec wording of C1: the distinct keys of a call
sequence, "in the order of their first insertion". -/
def specFirstInsertion (ks : List String) : List String :=
  ks.foldl (fun acc k => if k ∈ acc then acc else acc ++ [k]) []

/-- Embeds `stripNewLineEnding([]byte)` (lg/lg.go lines 736-746, the testlg v2
variant): empty input is returned unchanged; if the final byte is `'\n'` it is
dropped; otherwise the input is returned unchanged. -/
def stripNewLineEnding : List Char → List Char
  | b =>
    match b.getLast? with
    | some c => if c = '\n' then b.dropLast else b
    | none => b

/-- Embeds `stripNewLineEnding(string)` (lg/lg.go lines 469-471, the testlg v1
variant): `strings.TrimSuffix(s, "\n")`, i.e. if `"\n"` is a suffix of `s`,
drop the final character, else return `s` unchanged. Modelled on the
character data of the string. -/
def stripNewLineEndingStr (s : List Char) : List Char :=
  if ['\n'] <:+ s then s.dropLast else s

/-- A line emitted to a log sink: its level and message text. -/
structure OutLine : Type where
  level : LogLevel
  msg : String
  deriving DecidableEq, Repr

/-- A line emitted by a backend adapter, recording in addition the caller-skip
in effect at the emission point (the adapter layers' accumulated
`AddCallerSkip` amount handed to the underlying engine). -/
structure EmitLine : Type where
  level : LogLevel
  msg : String
  extraSkip : Int
  deriving DecidableEq, Repr

/-- Result of a `WarnIf*` method of a backend adapter: how many times the
supplied function (or `Close` method) was invoked by the method body, and the
lines emitted. -/
structure ARes : Type where
  calls : Nat
  out : List EmitLine
  deriving DecidableEq, Repr

/-! ### Discard adapter (lg.go lines 80-117)

`discardLog` carries no state. Every method body is empty except
`WarnIfFuncError` and `WarnIfCloseError`, which execute the function / the
`Close` method (once, in the non-nil branch) and discard the result. Each
method below returns the number of times it invoked the supplied
function/closer together with the list of lines it emitted. -/

/-- Embeds `discardLog.Debug`: empty body, no output. -/
def discardDebug {V : Type} (msg : String) (args : List V) : List OutLine := []

/-- Embeds `discardLog.Warn`: empty body, no output. -/
def discardWarn {V : Type} (msg : String) (args : List V) : List OutLine := []

/-- Embeds `discardLog.Error`: empty body, no output. -/
def discardError {V : Type} (msg : String) (args : List V) : List OutLine := []

/-- Embeds `discardLog.Err`: empty body, no output. -/
def discardErr (err : Option GoError) : List OutLine := []

/-- Embeds `discardLog.WarnIfError`: empty body, no output, even for a
non-nil error. -/
def discardWarnIfError (err : Option GoError) : List OutLine := []

/-- Embeds `discardLog.With`: returns a fresh `discardLog{}` value and emits
nothing. `discardLog` has no fields, so the returned state is `Unit`. -/
def discardWith {V : Type} (key : String) (val : V) : Unit × List OutLine :=
  ((), [])

/-- Embeds `discardLog.WarnIfFuncError`: if `fn` is nil, nothing happens; if
non-nil, `fn` is invoked exactly once (`_ = fn()`) and its result is
discarded. The `Nat` component counts the invocations of `fn` performed by
the method body. -/
def discardWarnIfFuncError (fn : Option (Unit → Option GoError)) :
    Nat × List OutLine :=
  match fn with
  | none => (0, [])
  | some f =>
    let _ := f ()
    (1, [])

/-- Embeds `discardLog.WarnIfCloseError`: if `c` is nil, nothing happens; if
non-nil, `c.Close()` is invoked exactly once and its result is discarded.
The `Nat` component counts the invocations of `Close`. -/
def discardWarnIfCloseError (c : Option Closer) : Nat × List OutLine :=
  match c with
  | none => (0, [])
  | some _ => (1, [])

/-! ### zaplg adapter (unnamed/part_007; the WarnIf methods are identical in
zaplg/zaplg.go)

`zaplg.Log` embeds a `*zap.SugaredLogger` (an external engine), keeps the
shared prototype logger `proto`, the accumulated field list `kvs`, and the
additional `callerSkip` bookkeeping field. The embedded sugared logger's own
accumulated caller-skip option is modelled by `skip`. -/

/-- State of a `zaplg.Log` instance. `skip` is the caller-skip accumulated
inside the embedded `SugaredLogger` via `zap.AddCallerSkip` options; `proto`
is the identity of the shared prototype `zap.Logger` (the backend
configuration shared by derived instances). -/
structure ZapLog (V : Type) : Type where
  skip : Int
  callerSkip : Int
  kvs : List (KeyVal V)
  proto : Nat
  deriving DecidableEq, Repr

/-- Embeds the promoted `SugaredLogger.Warn` on a `zaplg.Log`: one WARN line
at the logger's accumulated caller-skip. -/
def zaplgWarn {V : Type} (l : ZapLog V) (msg : String) : EmitLine :=
  ⟨LogLevel.warn, msg, l.skip⟩

/-- Embeds `(*Log).WarnIfError` of zaplg: nil error returns immediately;
otherwise `l.Desugar().WithOptions(zap.AddCallerSkip(1)).Warn(err.Error())`
emits one WARN line at skip one greater than the receiver's. The receiver is
returned unchanged (the method assigns no receiver field). -/
def zaplgWarnIfError {V : Type} (l : ZapLog V) (err : Option GoError) :
    ZapLog V × ARes :=
  match err with
  | none => (l, ⟨0, []⟩)
  | some e => (l, ⟨0, [⟨LogLevel.warn, e.msg, goIntAdd l.skip 1⟩]⟩)

/-- Embeds `(*Log).WarnIfFuncError` of zaplg: nil `fn` returns immediately;
otherwise `fn` is invoked once, and a non-nil result is emitted as one WARN
line at skip one greater than the receiver's. -/
def zaplgWarnIfFuncError {V : Type} (l : ZapLog V)
    (fn : Option (Unit → Option GoError)) : ZapLog V × ARes :=
  match fn with
  | none => (l, ⟨0, []⟩)
  | some f =>
    match f () with
    | none => (l, ⟨1, []⟩)
    | some e => (l, ⟨1, [⟨LogLevel.warn, e.msg, goIntAdd l.skip 1⟩]⟩)

/-- Embeds `(*Log).WarnIfCloseError` of zaplg: nil closer returns
immediately; otherwise `c.Close()` is invoked once, and a non-nil result is
emitted as one WARN line at skip one greater than the receiver's. -/
def zaplgWarnIfCloseError {V : Type} (l : ZapLog V) (c : Option Closer) :
    ZapLog V × ARes :=
  match c with
  | none => (l, ⟨0, []⟩)
  | some cl =>
    match cl.closeErr with
    | none => (l, ⟨1, []⟩)
    | some e => (l, ⟨1, [⟨LogLevel.warn, e.msg, goIntAdd l.skip 1⟩]⟩)

/-- Embeds `(*Log).AddCallerSkip` of zaplg (unnamed/part_007 lines 137-144):
a new instance whose sugared logger gained `zap.AddCallerSkip(skip)` and
whose `callerSkip` field is `l.callerSkip + skip`, sharing `proto` and
`kvs`. -/
def zaplgAddCallerSkip {V : Type} (l : ZapLog V) (n : Int) : ZapLog V :=
  { skip := goIntAdd l.skip n
    callerSkip := goIntAdd l.callerSkip n
    kvs := l.kvs
    proto := l.proto }

/-! ### Heap model for the zaplg `With` method (unnamed/part_007 lines
173-221)

`With` is the one method whose frame behaviour the spec calls out: it must
return a new instance and leave the receiver untouched. To make that
statable, heap-allocated `Log` objects are modelled explicitly: a heap is a
list of objects and a `*Log` is an index into it. `With` reads the receiver,
computes the deduplicated field list on fresh copies (`withKvs`), allocates a
new object (list append) and returns its address. No existing heap cell is
written. -/

/-- A heap-allocated zaplg `Log` object: accumulated fields, the
`callerSkip` bookkeeping field, and the shared prototype logger identity. -/
structure LogObj (V : Type) : Type where
  kvs : List (KeyVal V)
  callerSkip : Int
  proto : Nat
  deriving DecidableEq, Repr

/-- Embeds `(*Log).With` of zaplg over an explicit heap: read the receiver at
address `ref`, build the new field list with `withKvs` (both branches of the
source copy `l.kvs` before modifying), allocate a new `Log` object carrying
`l.proto` and `l.callerSkip`, and return the heap and the new address. A
dangling `ref` (impossible for a valid Go pointer) leaves the heap unchanged. -/
def heapWith {V : Type} (heap : List (LogObj V)) (ref : Nat) (key : String)
    (val : V) : List (LogObj V) × Nat :=
  match heap[ref]? with
  | none => (heap, ref)
  | some l =>
    (heap ++ [{ kvs := withKvs l.kvs key val
                callerSkip := l.callerSkip
                proto := l.proto }],
     heap.length)

/-! ### sloglg adapter (unnamed/part_003)

`sloglg.Log` embeds a `*slog.Logger` (modelled by its accumulated attribute
list) plus the `addCallerSkip` field. Its `WarnIf*` methods call the promoted
`slog.Logger.Warn` directly: the zap-era skip adjustment is commented out in
the source, so no extra caller-skip is applied, and the `addCallerSkip` field
is not consulted by `Warn` at all (slog logs at its own fixed depth,
extraSkip 0). -/

/-- State of a `sloglg.Log` instance: the embedded `slog.Logger`'s attribute
list and the adapter's `addCallerSkip` field. -/
structure SlogLog (V : Type) : Type where
  attrs : List (KeyVal V)
  addCallerSkip : Int
  deriving DecidableEq, Repr

/-- Embeds the promoted `slog.Logger.Warn` on a `sloglg.Log`: one WARN line at
slog's own fixed caller depth (no additional skip; the wrapper's
`addCallerSkip` field is not involved). -/
def sloglgWarn {V : Type} (l : SlogLog V) (msg : String) : EmitLine :=
  ⟨LogLevel.warn, msg, 0⟩

/-- Embeds `(*Log).WarnIfError` of sloglg (unnamed/part_003 lines 197-203):
nil error returns immediately; otherwise `l.Warn(err.Error())` — the skip
adjustment present in zaplg is commented out here, so the emission is exactly
a `Warn` emission. -/
def sloglgWarnIfError {V : Type} (l : SlogLog V) (err : Option GoError) :
    SlogLog V × ARes :=
  match err with
  | none => (l, ⟨0, []⟩)
  | some e => (l, ⟨0, [sloglgWarn l e.msg]⟩)

/-- Embeds `(*Log).WarnIfFuncError` of sloglg: nil `fn` returns immediately;
otherwise `fn` is invoked once and a non-nil result is logged via the plain
`l.Warn` (no extra skip). -/
def sloglgWarnIfFuncError {V : Type} (l : SlogLog V)
    (fn : Option (Unit → Option GoError)) : SlogLog V × ARes :=
  match fn with
  | none => (l, ⟨0, []⟩)
  | some f =>
    match f () with
    | none => (l, ⟨1, []⟩)
    | some e => (l, ⟨1, [sloglgWarn l e.msg]⟩)

/-- Embeds `(*Log).WarnIfCloseError` of sloglg: nil closer returns
immediately; otherwise `c.Close()` is invoked once and a non-nil result is
logged via the plain `l.Warn` (no extra skip). -/
def sloglgWarnIfCloseError {V : Type} (l : SlogLog V) (c : Option Closer) :
    SlogLog V × ARes :=
  match c with
  | none => (l, ⟨0, []⟩)
  | some cl =>
    match cl.closeErr with
    | none => (l, ⟨1, []⟩)
    | some e => (l, ⟨1, [sloglgWarn l e.msg]⟩)

/-- Embeds `(*Log).AddCallerSkip` of sloglg (unnamed/part_003 lines 206-211):
a new instance sharing the embedded logger, with `addCallerSkip` increased by
`skip`. -/
def sloglgAddCallerSkip {V : Type} (l : SlogLog V) (n : Int) : SlogLog V :=
  { attrs := l.attrs
    addCallerSkip := goIntAdd l.addCallerSkip n }

/-- Embeds `(*Log).With` of sloglg (unnamed/part_003 lines 251-256):
`sl := l.Logger; sl = sl.With(key, val); return &Log{Logger: sl}` — the new
instance's `addCallerSkip` field is omitted from the struct literal and is
therefore the zero value `0`; slog's own `With` appends the attribute. -/
def sloglgWith {V : Type} (l : SlogLog V) (key : String) (val : V) :
    SlogLog V :=
  { attrs := l.attrs ++ [⟨key, val⟩]
    addCallerSkip := 0 }

/-! ### Constructors and format validation

sloglg's `NewWith` (unnamed/part_003 lines 109-132) validates the format
selector with a switch whose default branch panics; zaplg's `NewWith`
(unnamed/part_007 lines 52-101) has no panic path: the encoder switch treats
every non-"json" format as the console (text) case, and the level-encoder
switch treats every format other than "text"/"testing" as lowercase. -/

/-- Handler kind selected by the sloglg constructor. -/
inductive SlogHandlerKind : Type
  | text
  | json
  deriving DecidableEq, Repr

/-- Configuration produced by a successful sloglg construction. -/
structure SlogCfg : Type where
  handler : SlogHandlerKind
  addSource : Bool
  addCallerSkip : Int
  deriving DecidableEq, Repr

/-- Embeds `NewWith` of sloglg (unnamed/part_003 lines 109-132): the format
switch accepts exactly "text" and "json" and panics (`Except.error`) on
anything else — including the "testing" format that the doc comment
advertises; on success the handler is text for "text" and JSON otherwise. -/
def sloglgNewWith (format : String) (timestamp utc level caller : Bool)
    (addCallerSkip : Int) : Except String SlogCfg :=
  if format = "text" ∨ format = "json" then
    Except.ok
      { handler := if format = "text" then SlogHandlerKind.text
                   else SlogHandlerKind.json
        addSource := caller
        addCallerSkip := addCallerSkip }
  else
    Except.error ("invalid log format: " ++ format)

/-- Encoder kind selected by the zaplg constructor. -/
inductive ZapEncKind : Type
  | json
  | console
  deriving DecidableEq, Repr

/-- Level-encoder kind selected by the zaplg constructor. -/
inductive ZapLevelEnc : Type
  | capital
  | lowercase
  deriving DecidableEq, Repr

/-- Configuration produced by the zaplg constructor (always; it has no
failure path). -/
structure ZapCfg : Type where
  encoder : ZapEncKind
  levelEnc : ZapLevelEnc
  callerKey : Bool
  timeKey : Bool
  levelKey : Bool
  skip : Int
  deriving DecidableEq, Repr

/-- Embeds `NewWith` of zaplg (unnamed/part_007 lines 52-101): no validation
of `format` — the core switch picks the JSON encoder for "json" and falls
through to the console encoder for every other string; the level-encoder
switch picks capital for "text"/"testing" and lowercase otherwise; caller
options are installed only when `caller` is true. Construction always
succeeds. -/
def zaplgNewWith (format : String) (timestamp utc level caller : Bool)
    (addCallerSkip : Int) : ZapCfg :=
  { encoder := if format = "json" then ZapEncKind.json else ZapEncKind.console
    levelEnc := if format = "text" ∨ format = "testing" then
                  ZapLevelEnc.capital
                else ZapLevelEnc.lowercase
    callerKey := caller
    timeKey := timestamp
    levelKey := level
    skip := if caller then addCallerSkip else 0 }

/-! ### Test-capture adapter testlg

Two variants exist in lg/lg.go: the v1 `testlg.Log` (lines 296-471) with a
`strict` flag, and the v2 `testlg.Log` (lines 530-746) without one. Each
leveled method calls the backing impl (which writes its encoded line into the
adapter's buffer), drains the buffer, strips the trailing newline and
forwards the result to the testing sink: `t.Error` (the failure path) for
`Error`/`Errorf` in strict mode, `t.Log` (the informational path) otherwise.
The backing impl and its encoder are external (zap by default), so each
method takes the bytes the backend writes (`render`) as a parameter and also
reports the call it made into the backing impl. -/

/-- The two reporting operations of the testing sink: `t.Log` (informational)
and `t.Error` (marks the test failed). -/
inductive TChannel : Type
  | info
  | failure
  deriving DecidableEq, Repr

/-- An entry forwarded to the testing sink. -/
structure TEntry : Type where
  ch : TChannel
  msg : List Char
  deriving DecidableEq, Repr

/-- State of a v1 `testlg.Log`: the strict flag and the byte buffer the
backing impl writes into. -/
structure TestLog : Type where
  strict : Bool
  buf : List Char
  deriving DecidableEq, Repr

/-- Result of a testlg v1 method: the updated adapter state, the number of
times the supplied function/closer was invoked, the calls made into the
backing impl, and the entries forwarded to the testing sink. -/
structure TRes : Type where
  state : TestLog
  calls : Nat
  impl : List OutLine
  sink : List TEntry
  deriving DecidableEq, Repr

/-- Embeds testlg v1 `(*Log).Debug`: `l.impl.Debug(a...)` writes
`render` into the buffer, the buffer is drained (`io.ReadAll`), and the
stripped bytes go to `t.Log`. `msg` is the backing impl's rendering of the
arguments; `render` is the bytes its encoder writes. -/
def testlgDebug (l : TestLog) (msg : String) (render : List Char) : TRes :=
  ⟨{ l with buf := [] }, 0, [⟨LogLevel.debug, msg⟩],
    [⟨TChannel.info, stripNewLineEndingStr (l.buf ++ render)⟩]⟩

/-- Embeds testlg v1 `(*Log).Debugf`: same pipeline as `Debug` via
`l.impl.Debugf`; `msg` is the format-expanded message. -/
def testlgDebugf (l : TestLog) (msg : String) (render : List Char) : TRes :=
  ⟨{ l with buf := [] }, 0, [⟨LogLevel.debug, msg⟩],
    [⟨TChannel.info, stripNewLineEndingStr (l.buf ++ render)⟩]⟩

/-- Embeds testlg v1 `(*Log).Warn`: drained output goes to `t.Log`. -/
def testlgWarn (l : TestLog) (msg : String) (render : List Char) : TRes :=
  ⟨{ l with buf := [] }, 0, [⟨LogLevel.warn, msg⟩],
    [⟨TChannel.info, stripNewLineEndingStr (l.buf ++ render)⟩]⟩

/-- Embeds testlg v1 `(*Log).Warnf`: drained output goes to `t.Log`. -/
def testlgWarnf (l : TestLog) (msg : String) (render : List Char) : TRes :=
  ⟨{ l with buf := [] }, 0, [⟨LogLevel.warn, msg⟩],
    [⟨TChannel.info, stripNewLineEndingStr (l.buf ++ render)⟩]⟩

/-- Embeds testlg v1 `(*Log).WarnIfError`: nil error returns before touching
any state; otherwise `l.impl.Warn(err)` (the error renders as its message),
drain, strip, `t.Log`. -/
def testlgWarnIfError (l : TestLog) (err : Option GoError)
    (render : List Char) : TRes :=
  match err with
  | none => ⟨l, 0, [], []⟩
  | some e =>
    ⟨{ l with buf := [] }, 0, [⟨LogLevel.warn, e.msg⟩],
      [⟨TChannel.info, stripNewLineEndingStr (l.buf ++ render)⟩]⟩

/-- Embeds testlg v1 `(*Log).WarnIfFuncError`: nil `fn` returns before
touching any state; otherwise `fn` is invoked once; a nil result returns with
no output; a non-nil error goes through the `Warn`-drain-strip-`t.Log`
pipeline. -/
def testlgWarnIfFuncError (l : TestLog) (fn : Option (Unit → Option GoError))
    (render : List Char) : TRes :=
  match fn with
  | none => ⟨l, 0, [], []⟩
  | some f =>
    match f () with
    | none => ⟨l, 1, [], []⟩
    | some e =>
      ⟨{ l with buf := [] }, 1, [⟨LogLevel.warn, e.msg⟩],
        [⟨TChannel.info, stripNewLineEndingStr (l.buf ++ render)⟩]⟩

/-- Embeds testlg v1 `(*Log).WarnIfCloseError`: nil closer returns before
touching any state; otherwise `c.Close()` is invoked once; a nil result
returns with no output; a non-nil error goes through the
`Warn`-drain-strip-`t.Log` pipeline. -/
def testlgWarnIfCloseError (l : TestLog) (c : Option Closer)
    (render : List Char) : TRes :=
  match c with
  | none => ⟨l, 0, [], []⟩
  | some cl =>
    match cl.closeErr with
    | none => ⟨l, 1, [], []⟩
    | some e =>
      ⟨{ l with buf := [] }, 1, [⟨LogLevel.warn, e.msg⟩],
        [⟨TChannel.info, stripNewLineEndingStr (l.buf ++ render)⟩]⟩

/-- Embeds testlg v1 `(*Log).Error` (lg/lg.go lines 432-446): the drained,
stripped output goes to `t.Error` when `l.strict` is set, else to `t.Log`. -/
def testlgError (l : TestLog) (msg : String) (render : List Char) : TRes :=
  ⟨{ l with buf := [] }, 0, [⟨LogLevel.error, msg⟩],
    [⟨if l.strict then TChannel.failure else TChannel.info,
      stripNewLineEndingStr (l.buf ++ render)⟩]⟩

/-- Embeds testlg v1 `(*Log).Errorf` (lg/lg.go lines 448-464): same strict
dispatch as `Error`. -/
def testlgErrorf (l : TestLog) (msg : String) (render : List Char) : TRes :=
  ⟨{ l with buf := [] }, 0, [⟨LogLevel.error, msg⟩],
    [⟨if l.strict then TChannel.failure else TChannel.info,
      stripNewLineEndingStr (l.buf ++ render)⟩]⟩

/-- State of a v2 `testlg.Log` (no strict flag; field list tracked for
`With`). -/
structure TestLogV2 (V : Type) : Type where
  buf : List Char
  kvs : List (KeyVal V)
  deriving DecidableEq, Repr

/-- Result of a testlg v2 method. -/
structure TResV2 (V : Type) : Type where
  state : TestLogV2 V
  impl : List OutLine
  sink : List TEntry
  deriving DecidableEq, Repr

/-- Embeds testlg v2 `(*Log).Error` (lg/lg.go lines 661-670): the v2 variant
has no strict mode; the drained output always goes to `t.Log` (this variant
uses the byte-slice strip). -/
def testlgV2Error {V : Type} (l : TestLogV2 V) (msg : String)
    (render : List Char) : TResV2 V :=
  ⟨{ l with buf := [] }, [⟨LogLevel.error, msg⟩],
    [⟨TChannel.info, stripNewLineEnding (l.buf ++ render)⟩]⟩

/-- Embeds testlg v2 `(*Log).Errorf` (lg/lg.go lines 672-682): always
`t.Log`. -/
def testlgV2Errorf {V : Type} (l : TestLogV2 V) (msg : String)
    (render : List Char) : TResV2 V :=
  ⟨{ l with buf := [] }, [⟨LogLevel.error, msg⟩],
    [⟨TChannel.info, stripNewLineEnding (l.buf ++ render)⟩]⟩

/-! ### The package-level AddCallerSkip helper (lg.go lines 60-78)

`lg.AddCallerSkip(log, skip)` returns nil for nil input; otherwise it probes
`log` for the optional `addCallerSkipper` interface and dispatches to the
adapter's own `AddCallerSkip` when implemented (zaplg in unnamed/part_007 and
sloglg implement it; discardLog, loglg and testlg do not), returning `log`
unchanged otherwise. -/

/-- Sum of the adapter implementations visible to the package-level helper.
`loglg` carries its configuration (timestamp/level flags); it has no
caller-skip capability, as do `discard` and `testlg`. -/
inductive LgAdapter (V : Type) : Type
  | discard
  | zaplg (s : ZapLog V)
  | sloglg (s : SlogLog V)
  | loglg (timestamp level caller : Bool)
  | testlg (s : TestLog)
  deriving DecidableEq, Repr

/-- Embeds the package-level `lg.AddCallerSkip` (lg.go lines 68-78): nil in,
nil out; a dynamic capability probe dispatches to the adapter's
`AddCallerSkip` when the adapter implements it, and returns the log unchanged
when it does not. -/
def lgAddCallerSkip {V : Type} (log : Option (LgAdapter V)) (n : Int) :
    Option (LgAdapter V) :=
  match log with
  | none => none
  | some (LgAdapter.zaplg s) => some (LgAdapter.zaplg (zaplgAddCallerSkip s n))
  | some (LgAdapter.sloglg s) =>
    some (LgAdapter.sloglg (sloglgAddCallerSkip s n))
  | some l => some l

/-! ## Theorems -/

/-- Keys of `withKvs`: unchanged when the key is already present, appended at
the end otherwise. -/
theorem keys_withKvs {V : Type} (kvs : List (KeyVal V)) (key : String)
    (val : V) :
    (withKvs kvs key val).map KeyVal.k =
      if key ∈ kvs.map KeyVal.k then kvs.map KeyVal.k
      else kvs.map KeyVal.k ++ [key] := by
  induction kvs with
  | nil => simp [withKvs]
  | cons kv rest ih =>
    by_cases h : kv.k = key
    · simp [withKvs, h]
    · by_cases hm : key ∈ rest.map KeyVal.k <;>
        simp [withKvs, h, ih, hm, Ne.symm h]

/-- Looking up the key just written by `withKvs` yields the written value. -/
theorem lookupKv_withKvs_self {V : Type} (kvs : List (KeyVal V))
    (key : String) (val : V) :
    lookupKv (withKvs kvs key val) key = some val := by
  induction kvs with
  | nil => simp [withKvs, lookupKv]
  | cons kv rest ih =>
    by_cases h : kv.k = key
    · simp [withKvs, h, lookupKv]
    · simp [withKvs, h, lookupKv, ih]

/-- Looking up any other key is unaffected by `withKvs`. -/
theorem lookupKv_withKvs_ne {V : Type} (kvs : List (KeyVal V))
    (key key' : String) (val : V) (h : key' ≠ key) :
    lookupKv (withKvs kvs key val) key' = lookupKv kvs key' := by
  induction kvs with
  | nil => simp [withKvs, lookupKv, Ne.symm h]
  | cons kv rest ih =>
    by_cases hk : kv.k = key
    · simp [withKvs, hk, lookupKv, Ne.symm h]
    · by_cases hk' : kv.k = key' <;> simp [withKvs, hk, hk', lookupKv, ih, h]

/-- Lookup after folding a sequence of `With` calls over any accumulator:
the most recent value written for the key wins, falling back to the
accumulator. -/
theorem applyWiths_lookup_go {V : Type} (ops : List (String × V)) :
    ∀ (acc : List (KeyVal V)) (key : String),
      lookupKv (ops.foldl (fun kvs op => withKvs kvs op.1 op.2) acc) key =
        match specLastWith ops key with
        | some w => some w
        | none => lookupKv acc key := by
  induction ops with
  | nil => intro acc key; simp [specLastWith]
  | cons op rest ih =>
    intro acc key
    obtain ⟨k, v⟩ := op
    rw [List.foldl_cons, ih]
    cases hl : specLastWith rest key with
    | some w => simp [specLastWith, hl]
    | none =>
      by_cases hk : k = key
      · subst hk
        simp [specLastWith, hl, lookupKv_withKvs_self]
      · simp [specLastWith, hl, hk,
          lookupKv_withKvs_ne _ _ _ _ (Ne.symm hk)]

/-- Keys after folding a sequence of `With` calls over any accumulator are
the first-insertion fold of the op keys over the accumulator's keys. -/
theorem applyWiths_keys_go {V : Type} (ops : List (String × V)) :
    ∀ acc : List (KeyVal V),
      ((ops.foldl (fun kvs op => withKvs kvs op.1 op.2) acc).map KeyVal.k) =
        (ops.map Prod.fst).foldl
          (fun acc k => if k ∈ acc then acc else acc ++ [k])
          (acc.map KeyVal.k) := by
  induction ops with
  | nil => intro acc; simp
  | cons op rest ih =>
    intro acc
    rw [List.foldl_cons, ih, List.map_cons, List.foldl_cons, keys_withKvs]

/-- The first-insertion fold preserves distinctness of keys. -/
theorem foldl_ins_nodup (ks : List String) :
    ∀ acc : List String, acc.Nodup →
      (ks.foldl (fun acc k => if k ∈ acc then acc else acc ++ [k])
        acc).Nodup := by
  induction ks with
  | nil => intro acc h; simpa using h
  | cons k rest ih =>
    intro acc h
    rw [List.foldl_cons]
    by_cases hk : k ∈ acc
    · simpa [hk] using ih acc h
    · refine ih _ ?_
      simp only [hk, if_false]
      refine List.Nodup.append h (List.nodup_singleton k) ?_
      intro a ha hb
      simp only [List.mem_singleton] at hb
      subst hb
      exact hk ha

/-- Membership in the first-insertion fold. -/
theorem mem_foldl_ins (ks : List String) :
    ∀ (acc : List String) (key : String),
      key ∈ ks.foldl (fun acc k => if k ∈ acc then acc else acc ++ [k]) acc ↔
        key ∈ acc ∨ key ∈ ks := by
  induction ks with
  | nil => intro acc key; simp
  | cons k rest ih =>
    intro acc key
    rw [List.foldl_cons, ih]
    by_cases hk : k ∈ acc
    · simp only [hk, if_true, List.mem_cons]
      constructor
      · rintro (h | h)
        · exact Or.inl h
        · exact Or.inr (Or.inr h)
      · rintro (h | h | h)
        · exact Or.inl h
        · exact Or.inl (h ▸ hk)
        · exact Or.inr h
    · simp only [hk, if_false, List.mem_append, List.mem_singleton,
        List.mem_cons]
      tauto

/-- C1: for every finite sequence of `With(key, value)` calls applied to a
fresh instance, the accumulated field list contains each distinct key exactly
once (keys are nodup, and a key is present iff some call used it), the value
paired with each key is the one from the most recent call for that key, and
the keys appear in first-insertion order. -/
theorem c1_with_dedup_lastwrite_order {V : Type} (ops : List (String × V)) :
    ((applyWiths ops).map KeyVal.k).Nodup ∧
    (∀ key, lookupKv (applyWiths ops) key = specLastWith ops key) ∧
    (applyWiths ops).map KeyVal.k = specFirstInsertion (ops.map Prod.fst) ∧
    (∀ key, key ∈ (applyWiths ops).map KeyVal.k ↔ key ∈ ops.map Prod.fst) := by
  have hkeys := applyWiths_keys_go ops []
  refine ⟨?_, ?_, ?_, ?_⟩
  · rw [applyWiths]
    rw [hkeys]
    exact foldl_ins_nodup _ _ (by simp)
  · intro key
    have := applyWiths_lookup_go ops [] key
    rw [applyWiths]
    rw [this]
    cases specLastWith ops key <;> simp [lookupKv]
  · rw [applyWiths, hkeys]
    rfl
  · intro key
    rw [applyWiths, hkeys]
    simpa using mem_foldl_ins (ops.map Prod.fst) [] key

/-- C2: for the Discard adapter, `WarnIfFuncError` with a non-nil `fn`
invokes `fn` exactly once and `WarnIfCloseError` with a non-nil closer
invokes `Close` exactly once, both without emitting any output; with nil
arguments nothing is invoked; and every other method of the adapter emits
nothing and has no effect. -/
theorem c2_discard_executes_fn_suppresses_output {V : Type} :
    (∀ f : Unit → Option GoError, discardWarnIfFuncError (some f) = (1, [])) ∧
    discardWarnIfFuncError none = (0, []) ∧
    (∀ c : Closer, discardWarnIfCloseError (some c) = (1, [])) ∧
    discardWarnIfCloseError none = (0, []) ∧
    (∀ (msg : String) (args : List V),
      discardDebug msg args = [] ∧ discardWarn msg args = [] ∧
      discardError msg args = []) ∧
    (∀ err : Option GoError, discardWarnIfError err = [] ∧
      discardErr err = []) ∧
    (∀ (key : String) (val : V), discardWith key val = ((), [])) := by
  refine ⟨fun f => rfl, rfl, fun c => rfl, rfl, fun m a => ?_,
    fun e => ?_, fun k v => rfl⟩
  · exact ⟨rfl, rfl, rfl⟩
  · exact ⟨rfl, rfl⟩

/-- C3 counterexample: the Discard adapter is an adapter implementation, yet
`WarnIfError` on a non-nil error emits nothing at all — in particular not the
error's message at WARN level — so the claim's universally quantified second
clause is false at the Discard adapter and the error "boom". -/
theorem c3_counterexample_discard_warnIfError :
    discardWarnIfError (some ⟨"boom"⟩) = [] ∧
    OutLine.mk LogLevel.warn "boom" ∉ discardWarnIfError (some ⟨"boom"⟩) := by
  exact ⟨rfl, by simp [discardWarnIfError]⟩

/-- C3 amended: for every modeled adapter, `WarnIfError(nil)`,
`WarnIfFuncError(nil)` and `WarnIfCloseError(nil)` emit zero lines, invoke
nothing and leave all state unchanged; and for every modeled adapter except
Discard, `WarnIfError(err)` with non-nil `err` emits exactly one line
carrying `err`'s message at WARN level (testlg emits the backend's WARN call
and forwards the drained line through the informational sink path), while
Discard's `WarnIfError` emits nothing even for non-nil `err`. -/
theorem c3_amended_warnif_nil_noop_warn_emission {V : Type} :
    (∀ l : ZapLog V,
      zaplgWarnIfError l none = (l, ⟨0, []⟩) ∧
      zaplgWarnIfFuncError l none = (l, ⟨0, []⟩) ∧
      zaplgWarnIfCloseError l none = (l, ⟨0, []⟩)) ∧
    (∀ l : SlogLog V,
      sloglgWarnIfError l none = (l, ⟨0, []⟩) ∧
      sloglgWarnIfFuncError l none = (l, ⟨0, []⟩) ∧
      sloglgWarnIfCloseError l none = (l, ⟨0, []⟩)) ∧
    (∀ (l : TestLog) (render : List Char),
      testlgWarnIfError l none render = ⟨l, 0, [], []⟩ ∧
      testlgWarnIfFuncError l none render = ⟨l, 0, [], []⟩ ∧
      testlgWarnIfCloseError l none render = ⟨l, 0, [], []⟩) ∧
    (discardWarnIfError none = [] ∧ discardWarnIfFuncError none = (0, []) ∧
      discardWarnIfCloseError none = (0, [])) ∧
    (∀ (l : ZapLog V) (e : GoError),
      zaplgWarnIfError l (some e) =
        (l, ⟨0, [⟨LogLevel.warn, e.msg, goIntAdd l.skip 1⟩]⟩)) ∧
    (∀ (l : SlogLog V) (e : GoError),
      sloglgWarnIfError l (some e) = (l, ⟨0, [⟨LogLevel.warn, e.msg, 0⟩]⟩)) ∧
    (∀ (l : TestLog) (e : GoError) (render : List Char),
      (testlgWarnIfError l (some e) render).impl = [⟨LogLevel.warn, e.msg⟩] ∧
      (testlgWarnIfError l (some e) render).sink.map TEntry.ch =
        [TChannel.info]) ∧
    (∀ e : GoError, discardWarnIfError (some e) = []) := by
  refine ⟨fun l => ?_, fun l => ?_, fun l render => ?_, ?_,
    fun l e => rfl, fun l e => rfl, fun l e render => ?_, fun e => rfl⟩
  all_goals first
    | exact ⟨rfl, rfl⟩
    | exact ⟨rfl, rfl, rfl⟩

/-- C4: for the test-capture adapter, `Error`/`Errorf` forward the drained
output through the failure path exactly when strict mode is enabled and
through the informational path otherwise, while `Debug`/`Debugf`/`Warn`/
`Warnf` and all `WarnIf*` methods always use the informational path; the v2
variant (which has no strict mode) always uses the informational path for
`Error`/`Errorf` as well. -/
theorem c4_testlg_strict_error_dispatch {V : Type} :
    (∀ (l : TestLog) (msg : String) (render : List Char),
      (testlgError l msg render).sink.map TEntry.ch =
        [if l.strict then TChannel.failure else TChannel.info] ∧
      (testlgErrorf l msg render).sink.map TEntry.ch =
        [if l.strict then TChannel.failure else TChannel.info] ∧
      (testlgDebug l msg render).sink.map TEntry.ch = [TChannel.info] ∧
      (testlgDebugf l msg render).sink.map TEntry.ch = [TChannel.info] ∧
      (testlgWarn l msg render).sink.map TEntry.ch = [TChannel.info] ∧
      (testlgWarnf l msg render).sink.map TEntry.ch = [TChannel.info]) ∧
    (∀ (l : TestLog) (e : GoError) (render : List Char),
      (testlgWarnIfError l (some e) render).sink.map TEntry.ch =
        [TChannel.info] ∧
      (testlgWarnIfFuncError l (some fun _ => some e) render).sink.map
        TEntry.ch = [TChannel.info] ∧
      (testlgWarnIfCloseError l (some ⟨some e⟩) render).sink.map TEntry.ch =
        [TChannel.info]) ∧
    (∀ (l : TestLogV2 V) (msg : String) (render : List Char),
      (testlgV2Error l msg render).sink.map TEntry.ch = [TChannel.info] ∧
      (testlgV2Errorf l msg render).sink.map TEntry.ch = [TChannel.info]) := by
  refine ⟨fun l msg render => ?_, fun l e render => ?_,
    fun l msg render => ⟨rfl, rfl⟩⟩
  · exact ⟨rfl, rfl, rfl, rfl, rfl, rfl⟩
  · exact ⟨rfl, rfl, rfl⟩

/-- C5: `With` on a heap of `Log` objects writes no existing heap cell — in
particular the receiver's field list, caller-skip and backend configuration
are exactly what they were before — and returns a fresh address holding the
derived instance, which shares the receiver's `proto` and `callerSkip` and
carries the deduplicated field list. -/
theorem c5_with_no_mutation {V : Type} (heap : List (LogObj V)) (ref : Nat)
    (key : String) (val : V) (h : ref < heap.length) :
    (∀ i, i < heap.length →
      (heapWith heap ref key val).1[i]? = heap[i]?) ∧
    (heapWith heap ref key val).1[ref]? = heap[ref]? ∧
    (heapWith heap ref key val).2 = heap.length ∧
    (heapWith heap ref key val).2 ≠ ref ∧
    (heapWith heap ref key val).1[(heapWith heap ref key val).2]? =
      some { kvs := withKvs heap[ref].kvs key val
             callerSkip := heap[ref].callerSkip
             proto := heap[ref].proto } := by
  have hget : heap[ref]? = some heap[ref] := List.getElem?_eq_getElem h
  unfold heapWith
  rw [hget]
  dsimp only
  refine ⟨?_, ?_, rfl, by omega, ?_⟩
  · intro i hi
    exact List.getElem?_append_left hi
  · exact (List.getElem?_append_left h).trans hget
  · exact List.getElem?_concat_length _ _

/-- C5 witness: a concrete one-object heap; after `With("a", 1)` the original
object is untouched and the new instance sits at the fresh address 1. -/
theorem c5_with_no_mutation_witness :
    (heapWith [(⟨[], 0, 0⟩ : LogObj Nat)] 0 "a" 1).1[0]? = some ⟨[], 0, 0⟩ ∧
    (heapWith [(⟨[], 0, 0⟩ : LogObj Nat)] 0 "a" 1).2 = 1 := by
  have h := c5_with_no_mutation [(⟨[], 0, 0⟩ : LogObj Nat)] 0 "a" 1
    (by decide)
  exact ⟨h.2.1.trans (by decide), h.2.2.1⟩

/-- Stripping after appending one element: the element is dropped exactly
when it is a newline. -/
theorem strip_concat (init : List Char) (a : Char) :
    stripNewLineEnding (init ++ [a]) =
      if a = '\n' then init else init ++ [a] := by
  simp [stripNewLineEnding, List.getLast?_concat, List.dropLast_concat]

/-- A singleton is a suffix of `init ++ [a]` exactly when it is `[a]`. -/
theorem singleton_suffix_concat (init : List Char) (a : Char) :
    ['\n'] <:+ init ++ [a] ↔ a = '\n' := by
  constructor
  · rintro ⟨t, ht⟩
    have h2 := congrArg List.getLast? ht
    simp [List.getLast?_concat] at h2
    exact h2.symm
  · rintro rfl
    exact ⟨init, rfl⟩

/-- C6 counterexample: stripping is not idempotent — on the input "a\n\n" one
application yields "a\n" and a second application yields "a". -/
theorem c6_counterexample_strip_not_idempotent :
    stripNewLineEnding (stripNewLineEnding ['a', '\n', '\n']) ≠
      stripNewLineEnding ['a', '\n', '\n'] := by
  decide

/-- C6 amended: stripping the trailing line terminator removes exactly one
trailing newline when one is present and returns the input unchanged
otherwise; it is idempotent on every input that does not end in two
consecutive newlines (in particular on all backend output ending in a single
newline), and the string variant (`strings.TrimSuffix`) agrees with the
byte-slice variant on all inputs. -/
theorem c6_amended_strip_one_newline (l : List Char) :
    (¬ ['\n', '\n'] <:+ l →
      stripNewLineEnding (stripNewLineEnding l) = stripNewLineEnding l) ∧
    stripNewLineEnding (l ++ ['\n']) = l ∧
    (l.getLast? ≠ some '\n' → stripNewLineEnding l = l) ∧
    stripNewLineEndingStr l = stripNewLineEnding l := by
  induction l using List.reverseRecOn with
  | nil =>
    refine ⟨fun _ => rfl, ?_, fun _ => rfl, by decide⟩
    rw [strip_concat]
    simp
  | append_singleton init a ih =>
    by_cases ha : a = '\n'
    · subst ha
      refine ⟨?_, ?_, ?_, ?_⟩
      · intro h2
        rw [strip_concat, if_pos rfl]
        induction init using List.reverseRecOn with
        | nil => rfl
        | append_singleton init2 b ih2 =>
          by_cases hb : b = '\n'
          · exact absurd ⟨init2, by simp [hb]⟩ h2
          · rw [strip_concat, if_neg hb]
      · rw [strip_concat]
        simp
      · intro hl
        simp [List.getLast?_concat] at hl
      · simp [stripNewLineEndingStr, singleton_suffix_concat,
          List.dropLast_concat, strip_concat]
    · have hself : stripNewLineEnding (init ++ [a]) = init ++ [a] := by
        rw [strip_concat, if_neg ha]
      refine ⟨fun _ => by rw [hself, hself], ?_, fun _ => hself, ?_⟩
      · rw [strip_concat]
        simp
      · simp [stripNewLineEndingStr, singleton_suffix_concat, ha, hself]

/-- C6 witness: concrete instances of the amended statement — stripping
"a\n" twice equals stripping it once, stripping "a\n" yields "a", and "a" is
returned unchanged. -/
theorem c6_amended_strip_one_newline_witness :
    stripNewLineEnding (stripNewLineEnding ['a', '\n']) =
      stripNewLineEnding ['a', '\n'] ∧
    stripNewLineEnding (['a'] ++ ['\n']) = ['a'] ∧
    stripNewLineEnding ['a'] = ['a'] :=
  ⟨(c6_amended_strip_one_newline ['a', '\n']).1 (by decide),
    (c6_amended_strip_one_newline ['a']).2.1,
    (c6_amended_strip_one_newline ['a']).2.2.1 (by decide)⟩

/-- C7: the package-level `AddCallerSkip` helper returns, for the adapters
implementing the optional capability (zaplg, sloglg), a new instance whose
caller-skip is the receiver's plus `n` (Go int addition), and returns the log
itself unchanged for adapters without the capability (Discard, loglg,
testlg); a nil log yields nil. -/
theorem c7_package_addCallerSkip {V : Type} :
    (∀ (s : ZapLog V) (n : Int),
      lgAddCallerSkip (some (LgAdapter.zaplg s)) n =
        some (LgAdapter.zaplg
          { skip := goIntAdd s.skip n
            callerSkip := goIntAdd s.callerSkip n
            kvs := s.kvs
            proto := s.proto })) ∧
    (∀ (s : SlogLog V) (n : Int),
      lgAddCallerSkip (some (LgAdapter.sloglg s)) n =
        some (LgAdapter.sloglg
          { attrs := s.attrs
            addCallerSkip := goIntAdd s.addCallerSkip n })) ∧
    (∀ n : Int,
      lgAddCallerSkip (some (LgAdapter.discard : LgAdapter V)) n =
        some LgAdapter.discard) ∧
    (∀ (t lv c : Bool) (n : Int),
      lgAddCallerSkip (some (LgAdapter.loglg (V := V) t lv c)) n =
        some (LgAdapter.loglg t lv c)) ∧
    (∀ (s : TestLog) (n : Int),
      lgAddCallerSkip (some (LgAdapter.testlg (V := V) s)) n =
        some (LgAdapter.testlg s)) ∧
    (∀ n : Int, lgAddCallerSkip (none : Option (LgAdapter V)) n = none) := by
  refine ⟨fun s n => rfl, fun s n => rfl, fun n => rfl,
    fun t lv c n => rfl, fun s n => rfl, fun n => rfl⟩

/-- C8 counterexample: the zaplg constructor does not fail on the
unrecognized format "bogus" — it constructs an ordinary configuration, with
the same console encoder the recognized "text" format gets, silently
continuing. -/
theorem c8_counterexample_zaplg_accepts_bogus :
    zaplgNewWith "bogus" true true true true 0 =
      { encoder := ZapEncKind.console
        levelEnc := ZapLevelEnc.lowercase
        callerKey := true
        timeKey := true
        levelKey := true
        skip := 0 } ∧
    (zaplgNewWith "bogus" true true true true 0).encoder =
      (zaplgNewWith "text" true true true true 0).encoder := by
  decide

/-- C8 amended: only the sloglg constructor fails loudly — it panics exactly
when the format is neither "text" nor "json" (so also on the documented
"testing" selector); the zaplg constructor never panics and silently treats
every format other than "json" as the console (text) encoder. -/
theorem c8_amended_format_validation :
    (∀ (f : String) (t u lv c : Bool) (n : Int),
      (sloglgNewWith f t u lv c n).isOk = (f == "text" || f == "json")) ∧
    (∀ (t u lv c : Bool) (n : Int),
      (sloglgNewWith "testing" t u lv c n).isOk = false) ∧
    (∀ (f : String) (t u lv c : Bool) (n : Int),
      (zaplgNewWith f t u lv c n).encoder =
        if f = "json" then ZapEncKind.json else ZapEncKind.console) := by
  refine ⟨?_, ?_, ?_⟩
  · intro f t u lv c n
    by_cases h : f = "text" ∨ f = "json"
    · rcases h with h | h <;> subst h <;> rfl
    · push_neg at h
      simp [sloglgNewWith, h.1, h.2, Except.isOk, Except.toBool]
  · intro t u lv c n
    rfl
  · intro f t u lv c n
    rfl

/-- C9 counterexample: in the sloglg adapter, `WarnIfError` on a non-nil
error emits at exactly the same caller-skip as a direct `Warn` — not one
unit larger. -/
theorem c9_counterexample_sloglg_no_extra_skip :
    (sloglgWarnIfError (⟨[], 0⟩ : SlogLog Nat) (some ⟨"x"⟩)).2.out.map
        EmitLine.extraSkip = [0] ∧
    (sloglgWarn (⟨[], 0⟩ : SlogLog Nat) "x").extraSkip = 0 ∧
    ¬ ((sloglgWarnIfError (⟨[], 0⟩ : SlogLog Nat) (some ⟨"x"⟩)).2.out.map
          EmitLine.extraSkip =
        [(sloglgWarn (⟨[], 0⟩ : SlogLog Nat) "x").extraSkip + 1]) := by
  decide

/-- C9 amended: in the zaplg adapter each of `WarnIfError`,
`WarnIfFuncError` and `WarnIfCloseError`, when it emits, does so at a
caller-skip exactly one unit (Go int addition) larger than a direct `Warn`
on the same instance; in the sloglg adapter the three methods emit at
exactly the caller-skip of a direct `Warn` (no extra unit — the adjustment
is commented out in the source). -/
theorem c9_amended_warnif_caller_skip {V : Type} :
    (∀ (l : ZapLog V) (e : GoError) (msg : String),
      (zaplgWarnIfError l (some e)).2.out.map EmitLine.extraSkip =
        [goIntAdd (zaplgWarn l msg).extraSkip 1]) ∧
    (∀ (l : ZapLog V) (e : GoError) (msg : String),
      (zaplgWarnIfFuncError l (some fun _ => some e)).2.out.map
        EmitLine.extraSkip = [goIntAdd (zaplgWarn l msg).extraSkip 1]) ∧
    (∀ (l : ZapLog V) (e : GoError) (msg : String),
      (zaplgWarnIfCloseError l (some ⟨some e⟩)).2.out.map
        EmitLine.extraSkip = [goIntAdd (zaplgWarn l msg).extraSkip 1]) ∧
    (∀ (l : SlogLog V) (e : GoError) (msg : String),
      (sloglgWarnIfError l (some e)).2.out.map EmitLine.extraSkip =
        [(sloglgWarn l msg).extraSkip]) ∧
    (∀ (l : SlogLog V) (e : GoError) (msg : String),
      (sloglgWarnIfFuncError l (some fun _ => some e)).2.out.map
        EmitLine.extraSkip = [(sloglgWarn l msg).extraSkip]) ∧
    (∀ (l : SlogLog V) (e : GoError) (msg : String),
      (sloglgWarnIfCloseError l (some ⟨some e⟩)).2.out.map
        EmitLine.extraSkip = [(sloglgWarn l msg).extraSkip]) := by
  refine ⟨fun l e msg => rfl, fun l e msg => rfl, fun l e msg => rfl,
    fun l e msg => rfl, fun l e msg => rfl, fun l e msg => rfl⟩

/-- C10: in the sloglg adapter, `With(key, value)` always produces an
instance whose additional caller skip is zero (the struct literal in the
source omits the field), so composing `AddCallerSkip(n)` — which does add
`n` — with `With` loses the accumulated `n` units of skip. -/
theorem c10_sloglg_with_resets_callerSkip {V : Type} :
    (∀ (l : SlogLog V) (key : String) (val : V),
      (sloglgWith l key val).addCallerSkip = 0 ∧
      (sloglgWith l key val).attrs = l.attrs ++ [⟨key, val⟩]) ∧
    (∀ (l : SlogLog V) (n : Int) (key : String) (val : V),
      (sloglgAddCallerSkip l n).addCallerSkip = goIntAdd l.addCallerSkip n ∧
      (sloglgWith (sloglgAddCallerSkip l n) key val).addCallerSkip = 0) := by
  exact ⟨fun l key val => ⟨rfl, rfl⟩, fun l n key val => ⟨rfl, rfl⟩⟩

end LgSpec
